import Mathlib

/-!
Shallow embedding of the workflow-events subsystem of the
construction-industry-agents repository (`workflow_events.py` and the
broadcast part of `backup_old_structure/sse_server.py`).

Conventions of the embedding:
* Python `datetime.now()` timestamps are modelled as `Nat` values supplied by
  the caller (the SQLite `TEXT` ISO format compares chronologically, so a
  linearly ordered stamp is faithful for ordering claims).
* Python `time.time()` float instants are modelled as `Int` values supplied by
  the caller; durations are differences of such instants.
* `json.dumps` / `json.loads` are modelled on a JSON syntax tree serialised to
  a token list (the lexical layer of the `TEXT` column is abstracted into
  tokens; the grammar structure of the serialisation is kept).
* Exceptions are modelled with `Except` / `Option`; a `try/except` that logs
  and swallows becomes a total function choosing the handler branch.
-/

namespace WorkflowEvents

/-- Tokens of the serialised JSON text stored in the `data` and `metadata`
`TEXT` columns of the `workflow_events` table. -/
inductive Tok where
| lbrace : Tok
| rbrace : Tok
| lbrack : Tok
| rbrack : Tok
| colon : Tok
| comma : Tok
| tnull : Tok
| tbool (b : Bool) : Tok
| tnum (n : Int) : Tok
| tstr (s : String) : Tok
deriving DecidableEq, Repr

mutual

/-- JSON values: the payloads Python `json.dumps` accepts from the event
`data` dictionaries (strings, numbers, booleans, null, nested lists and
objects). -/
inductive Json where
| null : Json
| bool (b : Bool) : Json
| num (n : Int) : Json
| str (s : String) : Json
| arr (a : JArr) : Json
| obj (o : JObj) : Json

/-- A (possibly empty) sequence of JSON array elements. -/
inductive JArr where
| nil : JArr
| cons (hd : Json) (tl : JArr) : JArr

/-- A (possibly empty) sequence of JSON object fields. -/
inductive JObj where
| nil : JObj
| cons (key : String) (val : Json) (tl : JObj) : JObj

end

mutual

/-- Serialisation of a JSON value to tokens, following `json.dumps`. -/
def Json.encode : Json → List Tok
| Json.null => [Tok.tnull]
| Json.bool b => [Tok.tbool b]
| Json.num n => [Tok.tnum n]
| Json.str s => [Tok.tstr s]
| Json.arr JArr.nil => [Tok.lbrack, Tok.rbrack]
| Json.arr (JArr.cons h t) => Tok.lbrack :: (Json.encode h ++ JArr.encodeRest t)
| Json.obj JObj.nil => [Tok.lbrace, Tok.rbrace]
| Json.obj (JObj.cons k v t) =>
    Tok.lbrace :: Tok.tstr k :: Tok.colon :: (Json.encode v ++ JObj.encodeRest t)

/-- Serialisation of the elements of an array after the first one: each
further element is preceded by a comma, and the list ends with the closing
bracket. -/
def JArr.encodeRest : JArr → List Tok
| JArr.nil => [Tok.rbrack]
| JArr.cons h t => Tok.comma :: (Json.encode h ++ JArr.encodeRest t)

/-- Serialisation of the fields of an object after the first one. -/
def JObj.encodeRest : JObj → List Tok
| JObj.nil => [Tok.rbrace]
| JObj.cons k v t => Tok.comma :: Tok.tstr k :: Tok.colon :: (Json.encode v ++ JObj.encodeRest t)

end

mutual

/-- Recursive-descent parse of one JSON value from a token list, following
`json.loads`; returns the value and the unconsumed tokens.  The `fuel`
argument bounds the recursion depth and strictly decreases on every
recursive call. -/
def parseVal : Nat → List Tok → Option (Json × List Tok)
| _+1, Tok.tnull :: rest => some (Json.null, rest)
| _+1, Tok.tbool b :: rest => some (Json.bool b, rest)
| _+1, Tok.tnum n :: rest => some (Json.num n, rest)
| _+1, Tok.tstr s :: rest => some (Json.str s, rest)
| _+1, Tok.lbrack :: Tok.rbrack :: rest => some (Json.arr JArr.nil, rest)
| fuel+1, Tok.lbrack :: rest =>
    match parseVal fuel rest with
    | some (v, r1) =>
        match parseArrRest fuel r1 with
        | some (tl, r2) => some (Json.arr (JArr.cons v tl), r2)
        | none => none
    | none => none
| _+1, Tok.lbrace :: Tok.rbrace :: rest => some (Json.obj JObj.nil, rest)
| fuel+1, Tok.lbrace :: Tok.tstr k :: Tok.colon :: rest =>
    match parseVal fuel rest with
    | some (v, r1) =>
        match parseObjRest fuel r1 with
        | some (tl, r2) => some (Json.obj (JObj.cons k v tl), r2)
        | none => none
    | none => none
| _, _ => none

/-- Parse the remaining elements of an array (a closing bracket, or a comma
followed by a value and further elements). -/
def parseArrRest : Nat → List Tok → Option (JArr × List Tok)
| _+1, Tok.rbrack :: rest => some (JArr.nil, rest)
| fuel+1, Tok.comma :: rest =>
    match parseVal fuel rest with
    | some (v, r1) =>
        match parseArrRest fuel r1 with
        | some (tl, r2) => some (JArr.cons v tl, r2)
        | none => none
    | none => none
| _, _ => none

/-- Parse the remaining fields of an object. -/
def parseObjRest : Nat → List Tok → Option (JObj × List Tok)
| _+1, Tok.rbrace :: rest => some (JObj.nil, rest)
| fuel+1, Tok.comma :: Tok.tstr k :: Tok.colon :: rest =>
    match parseVal fuel rest with
    | some (v, r1) =>
        match parseObjRest fuel r1 with
        | some (tl, r2) => some (JObj.cons k v tl, r2)
        | none => none
    | none => none
| _, _ => none

end

mutual

/-- Fuel bound sufficient to parse an encoded value. -/
def Json.fuelV : Json → Nat
| Json.null => 1
| Json.bool _ => 1
| Json.num _ => 1
| Json.str _ => 1
| Json.arr a => 1 + JArr.fuelA a
| Json.obj o => 1 + JObj.fuelO o

/-- Fuel bound sufficient to parse the tail of an encoded array. -/
def JArr.fuelA : JArr → Nat
| JArr.nil => 1
| JArr.cons h t => Json.fuelV h + JArr.fuelA t

/-- Fuel bound sufficient to parse the tail of an encoded object. -/
def JObj.fuelO : JObj → Nat
| JObj.nil => 1
| JObj.cons _ v t => Json.fuelV v + JObj.fuelO t

end

theorem fuelV_pos (j : Json) : 1 ≤ j.fuelV := by
  cases j <;> simp [Json.fuelV]

theorem fuelA_pos (a : JArr) : 1 ≤ a.fuelA := by
  cases a with
  | nil => simp [JArr.fuelA]
  | cons h t => simp [JArr.fuelA]; exact Nat.le_add_right_of_le (fuelV_pos h)

theorem fuelO_pos (o : JObj) : 1 ≤ o.fuelO := by
  cases o with
  | nil => simp [JObj.fuelO]
  | cons k v t => simp [JObj.fuelO]; exact Nat.le_add_right_of_le (fuelV_pos v)

theorem parseVal_lbrack (f : Nat) (j : Json) (ts : List Tok) :
    parseVal (f+1) (Tok.lbrack :: (Json.encode j ++ ts)) =
      (match parseVal f (Json.encode j ++ ts) with
       | some (v, r1) =>
           match parseArrRest f r1 with
           | some (tl, r2) => some (Json.arr (JArr.cons v tl), r2)
           | none => none
       | none => none) := by
  cases j with
  | null => rfl
  | bool b => rfl
  | num n => rfl
  | str s => rfl
  | arr a => cases a <;> rfl
  | obj o => cases o <;> rfl

theorem parseVal_lbrace (f : Nat) (k : String) (ts : List Tok) :
    parseVal (f+1) (Tok.lbrace :: Tok.tstr k :: Tok.colon :: ts) =
      (match parseVal f ts with
       | some (v, r1) =>
           match parseObjRest f r1 with
           | some (tl, r2) => some (Json.obj (JObj.cons k v tl), r2)
           | none => none
       | none => none) := rfl

theorem parseArrRest_comma (f : Nat) (ts : List Tok) :
    parseArrRest (f+1) (Tok.comma :: ts) =
      (match parseVal f ts with
       | some (v, r1) =>
           match parseArrRest f r1 with
           | some (tl, r2) => some (JArr.cons v tl, r2)
           | none => none
       | none => none) := rfl

theorem parseObjRest_comma (f : Nat) (k : String) (ts : List Tok) :
    parseObjRest (f+1) (Tok.comma :: Tok.tstr k :: Tok.colon :: ts) =
      (match parseVal f ts with
       | some (v, r1) =>
           match parseObjRest f r1 with
           | some (tl, r2) => some (JObj.cons k v tl, r2)
           | none => none
       | none => none) := rfl

/-- Parsing inverts serialisation, simultaneously for values, array tails and
object tails, for any sufficient fuel. -/
theorem parse_encode_fuel : ∀ fuel : Nat,
    (∀ (j : Json) (rest : List Tok), j.fuelV ≤ fuel →
       parseVal fuel (j.encode ++ rest) = some (j, rest)) ∧
    (∀ (a : JArr) (rest : List Tok), a.fuelA ≤ fuel →
       parseArrRest fuel (a.encodeRest ++ rest) = some (a, rest)) ∧
    (∀ (o : JObj) (rest : List Tok), o.fuelO ≤ fuel →
       parseObjRest fuel (o.encodeRest ++ rest) = some (o, rest)) := by
  intro fuel
  induction fuel with
  | zero =>
    refine ⟨?_, ?_, ?_⟩
    · intro j rest h; have := fuelV_pos j; omega
    · intro a rest h; have := fuelA_pos a; omega
    · intro o rest h; have := fuelO_pos o; omega
  | succ f ih =>
    obtain ⟨ihV, ihA, ihO⟩ := ih
    refine ⟨?_, ?_, ?_⟩
    · intro j rest h
      cases j with
      | null => rfl
      | bool b => rfl
      | num n => rfl
      | str s => rfl
      | arr a =>
        cases a with
        | nil => rfl
        | cons hd tl =>
          have hh : hd.fuelV ≤ f := by
            simp [Json.fuelV, JArr.fuelA] at h; omega
          have ht : tl.fuelA ≤ f := by
            simp [Json.fuelV, JArr.fuelA] at h; omega
          rw [Json.encode, List.cons_append, List.append_assoc,
            parseVal_lbrack f hd (JArr.encodeRest tl ++ rest),
            ihV hd _ hh]
          simp only [ihA tl rest ht]
      | obj o =>
        cases o with
        | nil => rfl
        | cons k v tl =>
          have hv : v.fuelV ≤ f := by
            simp [Json.fuelV, JObj.fuelO] at h; omega
          have ht : tl.fuelO ≤ f := by
            simp [Json.fuelV, JObj.fuelO] at h; omega
          rw [Json.encode, List.cons_append, List.cons_append, List.cons_append,
            List.append_assoc,
            parseVal_lbrace f k (Json.encode v ++ (JObj.encodeRest tl ++ rest)),
            ihV v _ hv]
          simp only [ihO tl rest ht]
    · intro a rest h
      cases a with
      | nil => rfl
      | cons hd tl =>
        have hh : hd.fuelV ≤ f := by
          simp [JArr.fuelA] at h; have := fuelA_pos tl; omega
        have ht : tl.fuelA ≤ f := by
          simp [JArr.fuelA] at h; have := fuelV_pos hd; omega
        rw [JArr.encodeRest, List.cons_append, List.append_assoc,
          parseArrRest_comma f (Json.encode hd ++ (JArr.encodeRest tl ++ rest)),
          ihV hd _ hh]
        simp only [ihA tl rest ht]
    · intro o rest h
      cases o with
      | nil => rfl
      | cons k v tl =>
        have hv : v.fuelV ≤ f := by
          simp [JObj.fuelO] at h; have := fuelO_pos tl; omega
        have ht : tl.fuelO ≤ f := by
          simp [JObj.fuelO] at h; have := fuelV_pos v; omega
        rw [JObj.encodeRest, List.cons_append, List.cons_append, List.cons_append,
          List.append_assoc,
          parseObjRest_comma f k (Json.encode v ++ (JObj.encodeRest tl ++ rest)),
          ihV v _ hv]
        simp only [ihO tl rest ht]

mutual

theorem fuelV_le_encode (j : Json) : j.fuelV ≤ j.encode.length := by
  cases j with
  | null => simp [Json.fuelV, Json.encode]
  | bool b => simp [Json.fuelV, Json.encode]
  | num n => simp [Json.fuelV, Json.encode]
  | str s => simp [Json.fuelV, Json.encode]
  | arr a =>
    cases a with
    | nil => simp [Json.fuelV, JArr.fuelA, Json.encode]
    | cons h t =>
      have h1 := fuelV_le_encode h
      have h2 := fuelA_le_encodeRest t
      simp [Json.fuelV, JArr.fuelA, Json.encode]
      omega
  | obj o =>
    cases o with
    | nil => simp [Json.fuelV, JObj.fuelO, Json.encode]
    | cons k v t =>
      have h1 := fuelV_le_encode v
      have h2 := fuelO_le_encodeRest t
      simp [Json.fuelV, JObj.fuelO, Json.encode]
      omega

theorem fuelA_le_encodeRest (a : JArr) : a.fuelA ≤ a.encodeRest.length := by
  cases a with
  | nil => simp [JArr.fuelA, JArr.encodeRest]
  | cons h t =>
    have h1 := fuelV_le_encode h
    have h2 := fuelA_le_encodeRest t
    simp [JArr.fuelA, JArr.encodeRest]
    omega

theorem fuelO_le_encodeRest (o : JObj) : o.fuelO ≤ o.encodeRest.length := by
  cases o with
  | nil => simp [JObj.fuelO, JObj.encodeRest]
  | cons k v t =>
    have h1 := fuelV_le_encode v
    have h2 := fuelO_le_encodeRest t
    simp [JObj.fuelO, JObj.encodeRest]
    omega

end

/-- Serialisation of a payload to the text stored in a `TEXT` column,
following `json.dumps`. -/
def Json.dumps (j : Json) : List Tok := j.encode

/-- Deserialisation of a stored `TEXT` column back to a payload, following
`json.loads`: the whole text must parse as one JSON value. -/
def Json.loads (ts : List Tok) : Option Json :=
  match parseVal (ts.length + 1) ts with
  | some (j, []) => some j
  | _ => none

/-- Deserialising a serialised payload gives the payload back. -/
theorem loads_dumps (j : Json) : Json.loads (Json.dumps j) = some j := by
  have hb : j.fuelV ≤ j.encode.length + 1 :=
    Nat.le_succ_of_le (fuelV_le_encode j)
  have h := (parse_encode_fuel (j.encode.length + 1)).1 j [] hb
  simp only [List.append_nil] at h
  simp [Json.loads, Json.dumps, h]

/-- The `WorkflowEvent` dataclass of `workflow_events.py`. -/
structure WorkflowEvent where
  event_id : String
  workflow_id : String
  timestamp : Nat
  event_type : String
  agent_name : String
  status : String
  message : String
  data : Json
  duration : Option Int
  error : Option String
  metadata : Option Json

/-- A row of the `workflow_events` SQLite table: `data` and `metadata` hold
serialised JSON text (`json.dumps` output); `metadata` is `NULL` when the
event had none. -/
structure Row where
  event_id : String
  workflow_id : String
  timestamp : Nat
  event_type : String
  agent_name : String
  status : String
  message : String
  data : List Tok
  duration : Option Int
  error : Option String
  metadata : Option (List Tok)

/-- The tuple bound by `EventStorage.store_event`'s `INSERT`:
`json.dumps(event.data)` for the `data` column and
`json.dumps(event.metadata) if event.metadata else None` for `metadata`. -/
def eventToRow (e : WorkflowEvent) : Row :=
  { event_id := e.event_id
    workflow_id := e.workflow_id
    timestamp := e.timestamp
    event_type := e.event_type
    agent_name := e.agent_name
    status := e.status
    message := e.message
    data := e.data.dumps
    duration := e.duration
    error := e.error
    metadata := e.metadata.map Json.dumps }

/-- The `EventStorage` component: the table contents in insertion (rowid)
order, plus two environment flags modelling whether the SQLite layer raises
on the next write or read (I/O failure). -/
structure EventStorage where
  rows : List Row
  readFails : Bool
  writeFails : Bool

/-- The `EventStorage.store_event` method: on success the row is appended and
committed; on a database failure the exception is logged and re-raised to the
caller (the method body ends in `raise`). -/
def EventStorage.store_event (s : EventStorage) (e : WorkflowEvent) :
    Except String EventStorage :=
  if s.writeFails then Except.error "Failed to store event"
  else Except.ok { s with rows := s.rows ++ [eventToRow e] }

/-- Comparison used by `ORDER BY timestamp DESC` (ISO-format `TEXT`
timestamps compare chronologically). -/
def tsGE (a b : Row) : Prop := b.timestamp ≤ a.timestamp

instance : DecidableRel tsGE := fun a b =>
  inferInstanceAs (Decidable (b.timestamp ≤ a.timestamp))

instance : IsTotal Row tsGE := ⟨fun a b => le_total b.timestamp a.timestamp⟩

instance : IsTrans Row tsGE := ⟨fun _ _ _ hab hbc => le_trans hbc hab⟩

/-- Result order of `ORDER BY timestamp DESC`. -/
def sortByTsDesc (l : List Row) : List Row := List.insertionSort tsGE l

/-- Reconstruction of a `WorkflowEvent` from a fetched row, as in the
row-to-event loop of both query methods: `json.loads` on the `data` column,
and on the `metadata` column when it is non-`NULL`.  A `json.loads` failure
raises, which the enclosing `try` turns into an empty result. -/
def rowToEvent (r : Row) : Option WorkflowEvent :=
  match Json.loads r.data with
  | none => none
  | some d =>
    match r.metadata with
    | none =>
      some { event_id := r.event_id, workflow_id := r.workflow_id,
             timestamp := r.timestamp, event_type := r.event_type,
             agent_name := r.agent_name, status := r.status,
             message := r.message, data := d, duration := r.duration,
             error := r.error, metadata := none }
    | some mt =>
      match Json.loads mt with
      | none => none
      | some m =>
        some { event_id := r.event_id, workflow_id := r.workflow_id,
               timestamp := r.timestamp, event_type := r.event_type,
               agent_name := r.agent_name, status := r.status,
               message := r.message, data := d, duration := r.duration,
               error := r.error, metadata := some m }

/-- The fetch loop of the query methods: all rows convert, or the loop raises
(propagated to the enclosing `try`). -/
def rowsToEvents : List Row → Option (List WorkflowEvent)
| [] => some []
| r :: rs =>
  match rowToEvent r with
  | none => none
  | some e =>
    match rowsToEvents rs with
    | none => none
    | some es => some (e :: es)

/-- The `EventStorage.get_events_by_workflow` method: `WHERE workflow_id = ?`
then `ORDER BY timestamp DESC` then `LIMIT ?`; any exception (connection or
row conversion) is logged and an empty list returned. -/
def EventStorage.get_events_by_workflow (s : EventStorage) (wid : String)
    (limit : Nat) : List WorkflowEvent :=
  if s.readFails then []
  else
    match rowsToEvents
        ((sortByTsDesc (s.rows.filter (fun r => r.workflow_id == wid))).take limit) with
    | some es => es
    | none => []

/-- The `EventStorage.get_recent_events` method: `ORDER BY timestamp DESC`
then `LIMIT ?` over all workflows; any exception is logged and an empty list
returned. -/
def EventStorage.get_recent_events (s : EventStorage) (limit : Nat) :
    List WorkflowEvent :=
  if s.readFails then []
  else
    match rowsToEvents ((sortByTsDesc s.rows).take limit) with
    | some es => es
    | none => []

/-- Lookup in a Python dict modelled as an association list with unique
keys. -/
def lookupKey {α : Type} (k : String) : List (String × α) → Option α
| [] => none
| (k', v) :: t => if k' = k then some v else lookupKey k t

/-- Python `dict[k] = v`: replace the value if the key is present (keeping
its position), otherwise append the new entry. -/
def setKey {α : Type} (k : String) (v : α) : List (String × α) → List (String × α)
| [] => [(k, v)]
| (k', v') :: t => if k' = k then (k, v) :: t else (k', v') :: setKey k v t

/-- Python `del dict[k]`: remove the entry for `k` (keys are unique in a
Python dict, so removing every matching entry is the same operation). -/
def delKey {α : Type} (k : String) : List (String × α) → List (String × α)
| [] => []
| (k', v') :: t => if k' = k then delKey k t else (k', v') :: delKey k t

/-- A registered event handler.  `hid` identifies it; `raisesOn` tells on
which events the Python callable would raise an exception. -/
structure Handler where
  hid : String
  raisesOn : WorkflowEvent → Bool

/-- The `EventGenerator` state: its workflow id, the storage it writes to,
the registered handlers in registration order, and the in-memory
`start_times` map from agent name to a `time.time()` instant. -/
structure EventGenerator where
  workflow_id : String
  storage : EventStorage
  event_handlers : List Handler
  start_times : List (String × Int)

/-- The `EventGenerator.add_handler` method. -/
def EventGenerator.add_handler (g : EventGenerator) (h : Handler) : EventGenerator :=
  { g with event_handlers := g.event_handlers ++ [h] }

/-- Python `data or {}` (an absent or empty dict becomes `{}`). -/
def dataOrEmpty (d : Option Json) : Json :=
  match d with
  | some j => j
  | none => Json.obj JObj.nil

/-- The `EventGenerator._create_event` method.  The caller's environment
supplies the fresh `uuid4` id `eid`, the `datetime.now()` stamp `ts` and the
`time.time()` instant `now`.  If `agent_name` is in `start_times`, the
duration is `now` minus the recorded instant and the entry is deleted —
this happens for every event type, not only completions. -/
def EventGenerator.create_event (g : EventGenerator) (eid : String) (ts : Nat)
    (now : Int) (event_type : String) (agent_name : String) (status : String)
    (message : String) (data : Json) (error : Option String)
    (metadata : Option Json) : EventGenerator × WorkflowEvent :=
  let duration : Option Int :=
    match lookupKey agent_name g.start_times with
    | some t0 => some (now - t0)
    | none => none
  let g' :=
    match lookupKey agent_name g.start_times with
    | some _ => { g with start_times := delKey agent_name g.start_times }
    | none => g
  (g', { event_id := eid, workflow_id := g.workflow_id, timestamp := ts,
         event_type := event_type, agent_name := agent_name, status := status,
         message := message, data := data, duration := duration,
         error := error, metadata := metadata })

/-- The `EventGenerator._emit_event` method.  The whole body sits in one
`try` whose `except` only logs, so the method never raises: a `store_event`
exception aborts the body before the handler loop runs (no handler is
invoked).  When the store succeeds, every handler is invoked in registration
order; the returned list records, in order, each invoked handler's id and
whether its call raised (each handler call has its own `try/except`, so a
raising handler never stops the loop). -/
def EventGenerator.emit_event (g : EventGenerator) (e : WorkflowEvent) :
    EventGenerator × List (String × Bool) :=
  match g.storage.store_event e with
  | Except.error _ => (g, [])
  | Except.ok st =>
    ({ g with storage := st }, g.event_handlers.map (fun h => (h.hid, h.raisesOn e)))

/-- The `EventGenerator.workflow_started` method: build the event, then emit
it.  Returns the new state, the built event and the handler-invocation
record. -/
def EventGenerator.workflow_started (g : EventGenerator) (data : Option Json)
    (eid : String) (ts : Nat) (now : Int) :
    EventGenerator × WorkflowEvent × List (String × Bool) :=
  let p := g.create_event eid ts now "workflow_started" "workflow_orchestrator"
    "info" "Workflow execution started" (dataOrEmpty data) none none
  let q := p.1.emit_event p.2
  (q.1, p.2, q.2)

/-- The `EventGenerator.workflow_completed` method. -/
def EventGenerator.workflow_completed (g : EventGenerator) (data : Option Json)
    (eid : String) (ts : Nat) (now : Int) :
    EventGenerator × WorkflowEvent × List (String × Bool) :=
  let p := g.create_event eid ts now "workflow_completed" "workflow_orchestrator"
    "success" "Workflow execution completed" (dataOrEmpty data) none none
  let q := p.1.emit_event p.2
  (q.1, p.2, q.2)

/-- The `EventGenerator.workflow_error` method. -/
def EventGenerator.workflow_error (g : EventGenerator) (error : String)
    (data : Option Json) (eid : String) (ts : Nat) (now : Int) :
    EventGenerator × WorkflowEvent × List (String × Bool) :=
  let p := g.create_event eid ts now "workflow_error" "workflow_orchestrator"
    "error" "Workflow execution failed" (dataOrEmpty data) (some error) none
  let q := p.1.emit_event p.2
  (q.1, p.2, q.2)

/-- The `EventGenerator.agent_started` method: records
`start_times[agent_name] = time.time()` (the instant `tStart`), then builds
the event with a second `time.time()` reading `now`, then emits. -/
def EventGenerator.agent_started (g : EventGenerator) (agent_name : String)
    (data : Option Json) (eid : String) (ts : Nat) (tStart : Int) (now : Int) :
    EventGenerator × WorkflowEvent × List (String × Bool) :=
  let g0 := { g with start_times := setKey agent_name tStart g.start_times }
  let p := g0.create_event eid ts now "agent_started" agent_name "progress"
    (agent_name ++ " processing started") (dataOrEmpty data) none none
  let q := p.1.emit_event p.2
  (q.1, p.2, q.2)

/-- The `EventGenerator.agent_completed` method. -/
def EventGenerator.agent_completed (g : EventGenerator) (agent_name : String)
    (data : Option Json) (eid : String) (ts : Nat) (now : Int) :
    EventGenerator × WorkflowEvent × List (String × Bool) :=
  let p := g.create_event eid ts now "agent_completed" agent_name "success"
    (agent_name ++ " processing completed") (dataOrEmpty data) none none
  let q := p.1.emit_event p.2
  (q.1, p.2, q.2)

/-- The `EventGenerator.agent_error` method. -/
def EventGenerator.agent_error (g : EventGenerator) (agent_name : String)
    (error : String) (data : Option Json) (eid : String) (ts : Nat) (now : Int) :
    EventGenerator × WorkflowEvent × List (String × Bool) :=
  let p := g.create_event eid ts now "agent_error" agent_name "error"
    (agent_name ++ " processing failed") (dataOrEmpty data) (some error) none
  let q := p.1.emit_event p.2
  (q.1, p.2, q.2)

/-- The `EventGenerator.performance_metric` method (the `float` metric value
is modelled as an `Int`). -/
def EventGenerator.performance_metric (g : EventGenerator) (agent_name : String)
    (metric_name : String) (value : Int) (unit : Option String)
    (eid : String) (ts : Nat) (now : Int) :
    EventGenerator × WorkflowEvent × List (String × Bool) :=
  let d := Json.obj (JObj.cons "metric_name" (Json.str metric_name)
    (JObj.cons "value" (Json.num value)
      (JObj.cons "unit" (match unit with
        | some u => Json.str u
        | none => Json.null) JObj.nil)))
  let p := g.create_event eid ts now "performance_metric" agent_name "info"
    ("Performance metric: " ++ metric_name ++ " = " ++ toString value ++
      (match unit with | some u => u | none => "")) d none none
  let q := p.1.emit_event p.2
  (q.1, p.2, q.2)

/-- The `EventGenerator.progress_update` method (the `float` progress is
modelled as an `Int`). -/
def EventGenerator.progress_update (g : EventGenerator) (agent_name : String)
    (progress : Int) (message : Option String)
    (eid : String) (ts : Nat) (now : Int) :
    EventGenerator × WorkflowEvent × List (String × Bool) :=
  let d := Json.obj (JObj.cons "progress" (Json.num progress) JObj.nil)
  let p := g.create_event eid ts now "progress_update" agent_name "progress"
    (match message with
     | some m => m
     | none => "Progress: " ++ toString progress ++ "%") d none none
  let q := p.1.emit_event p.2
  (q.1, p.2, q.2)

/-- The `EventGenerator.status_update` method. -/
def EventGenerator.status_update (g : EventGenerator) (agent_name : String)
    (status : String) (message : String) (data : Option Json)
    (eid : String) (ts : Nat) (now : Int) :
    EventGenerator × WorkflowEvent × List (String × Bool) :=
  let p := g.create_event eid ts now "status_update" agent_name status message
    (dataOrEmpty data) none none
  let q := p.1.emit_event p.2
  (q.1, p.2, q.2)

/-- The `EventManager` state: its storage and the registry of active
generators (a Python dict keyed by workflow id). -/
structure EventManager where
  storage : EventStorage
  active_generators : List (String × EventGenerator)

/-- A freshly constructed `EventManager` over a given storage: the registry
starts empty. -/
def EventManager.init (s : EventStorage) : EventManager :=
  { storage := s, active_generators := [] }

/-- The `EventManager.create_generator` method: builds a fresh generator for
the workflow over the shared storage and registers it. -/
def EventManager.create_generator (m : EventManager) (wid : String) :
    EventGenerator × EventManager :=
  let gen : EventGenerator :=
    { workflow_id := wid, storage := m.storage, event_handlers := [],
      start_times := [] }
  (gen, { m with active_generators := setKey wid gen m.active_generators })

/-- The `EventManager.get_generator` method. -/
def EventManager.get_generator (m : EventManager) (wid : String) :
    Option EventGenerator :=
  lookupKey wid m.active_generators

/-- The `EventManager.remove_generator` method: deletes the entry when
present, otherwise does nothing. -/
def EventManager.remove_generator (m : EventManager) (wid : String) : EventManager :=
  match lookupKey wid m.active_generators with
  | some _ => { m with active_generators := delKey wid m.active_generators }
  | none => m

/-- The `EventManager.get_active_workflows` method: the registry's keys. -/
def EventManager.get_active_workflows (m : EventManager) : List String :=
  m.active_generators.map Prod.fst

/-- An envelope queued by `SSEServer.broadcast_event`: a dict with the
constant type tag, the full event dict, and a broadcast timestamp. -/
structure Envelope where
  event : WorkflowEvent
  timestamp : Nat

/-- The broadcast-relevant `SSEServer` state (`backup_old_structure/sse_server.py`):
the set of connected listener client ids and the pending broadcast queue. -/
structure SSEServer where
  subscribers : List String
  event_queue : List Envelope

/-- The `SSEServer.broadcast_event` method: returns immediately when no
subscriber is connected, otherwise enqueues the envelope for the broadcast
loop. -/
def SSEServer.broadcast_event (s : SSEServer) (e : WorkflowEvent) (now : Nat) :
    SSEServer :=
  if s.subscribers.isEmpty then s
  else { s with event_queue := s.event_queue ++ [{ event := e, timestamp := now }] }

/-- The `SSEServer._send_to_subscribers` method.  Its body only logs the
envelope ("In a real implementation, this would send to actual SSE clients.
For now, we'll just log the event"), so the list of (client id, envelope)
deliveries it performs is empty, whatever the subscriber set is. -/
def SSEServer.send_to_subscribers (subscribers : List String) (env : Envelope) :
    List (String × Envelope) :=
  []

/-- One pass of the `_broadcast_loop` body: drain the queue, sending each
envelope to the subscribers; returns the new state and every delivery
performed. -/
def SSEServer.drain_queue (s : SSEServer) : SSEServer × List (String × Envelope) :=
  ({ s with event_queue := [] },
    (s.event_queue.map (fun env => SSEServer.send_to_subscribers s.subscribers env)).flatten)

/-- Listener disconnect (the `finally` of `_handle_sse_stream`): the client
id is removed from the subscriber set. -/
def SSEServer.disconnect (s : SSEServer) (cid : String) : SSEServer :=
  { s with subscribers := s.subscribers.filter (fun c => !(c == cid)) }

theorem lookup_delKey {α : Type} (k : String) (l : List (String × α)) :
    lookupKey k (delKey k l) = none := by
  induction l with
  | nil => rfl
  | cons p t ih =>
    obtain ⟨k', v⟩ := p
    by_cases h : k' = k <;> simp [delKey, lookupKey, h, ih]

theorem lookup_setKey_self {α : Type} (k : String) (v : α) (l : List (String × α)) :
    lookupKey k (setKey k v l) = some v := by
  induction l with
  | nil => simp [setKey, lookupKey]
  | cons p t ih =>
    obtain ⟨k', v'⟩ := p
    by_cases h : k' = k <;> simp [setKey, lookupKey, h, ih]

theorem create_event_start_times_consumed (g : EventGenerator) (eid : String)
    (ts : Nat) (now : Int) (et A st msg : String) (d : Json)
    (err : Option String) (md : Option Json) :
    lookupKey A ((g.create_event eid ts now et A st msg d err md).1.start_times) = none := by
  unfold EventGenerator.create_event
  cases h : lookupKey A g.start_times <;> simp [h, lookup_delKey]

theorem create_event_preserves (g : EventGenerator) (eid : String)
    (ts : Nat) (now : Int) (et A st msg : String) (d : Json)
    (err : Option String) (md : Option Json) :
    (g.create_event eid ts now et A st msg d err md).1.storage = g.storage ∧
    (g.create_event eid ts now et A st msg d err md).1.event_handlers = g.event_handlers ∧
    (g.create_event eid ts now et A st msg d err md).1.workflow_id = g.workflow_id := by
  unfold EventGenerator.create_event
  cases h : lookupKey A g.start_times <;> simp [h]

theorem emit_event_preserves_start_times (g : EventGenerator) (e : WorkflowEvent) :
    (g.emit_event e).1.start_times = g.start_times := by
  unfold EventGenerator.emit_event
  cases h : g.storage.store_event e <;> simp [h]

theorem emit_event_start_times_eq (g g' : EventGenerator) (e : WorkflowEvent)
    (h : g'.start_times = g.start_times) :
    (g'.emit_event e).1.start_times = g.start_times := by
  rw [emit_event_preserves_start_times, h]

/-- C10: after any emission call of an `EventGenerator` that names agent `A`
returns — `agent_started(A)`, `progress_update(A, ...)`,
`performance_metric(A, ...)` — the in-memory start-time table has no entry
for `A`: `_create_event` reads and deletes the start-time entry for its
`agent_name` on every event it builds, not only on completion or error
events. -/
theorem create_event_consumes_start_time (g : EventGenerator) (eid : String)
    (ts : Nat) (now : Int) (et A st msg : String) (d : Json)
    (err : Option String) (md : Option Json) (data : Option Json)
    (tStart : Int) (prog : Int) (pmsg : Option String)
    (mname : String) (value : Int) (unit : Option String) :
    lookupKey A ((g.create_event eid ts now et A st msg d err md).1.start_times) = none ∧
    lookupKey A ((g.agent_started A data eid ts tStart now).1.start_times) = none ∧
    lookupKey A ((g.progress_update A prog pmsg eid ts now).1.start_times) = none ∧
    lookupKey A ((g.performance_metric A mname value unit eid ts now).1.start_times) = none := by
  refine ⟨create_event_start_times_consumed g eid ts now et A st msg d err md, ?_, ?_, ?_⟩
  · unfold EventGenerator.agent_started
    rw [emit_event_preserves_start_times]
    exact create_event_start_times_consumed _ _ _ _ _ _ _ _ _ _ _
  · unfold EventGenerator.progress_update
    rw [emit_event_preserves_start_times]
    exact create_event_start_times_consumed _ _ _ _ _ _ _ _ _ _ _
  · unfold EventGenerator.performance_metric
    rw [emit_event_preserves_start_times]
    exact create_event_start_times_consumed _ _ _ _ _ _ _ _ _ _ _

/-- C1 (evaluation of the defect): for every generator state, an
`agent_started(A)` followed by `agent_completed(A)` with no intervening call
produces a completed event whose `duration` is `none` — the started event
itself consumed the start-time entry and carries the (near-zero) duration
`now - tStart` instead.  The claim's non-`None`, gap-sized duration on the
completed event is therefore violated by the code. -/
theorem completed_duration_is_none (g : EventGenerator) (A : String)
    (d1 d2 : Option Json) (eid1 eid2 : String) (ts1 ts2 : Nat)
    (tStart now1 now2 : Int) :
    (((g.agent_started A d1 eid1 ts1 tStart now1).1.agent_completed
        A d2 eid2 ts2 now2).2.1.duration = none) ∧
    ((g.agent_started A d1 eid1 ts1 tStart now1).2.1.duration = some (now1 - tStart)) := by
  constructor
  · have hst : lookupKey A ((g.agent_started A d1 eid1 ts1 tStart now1).1.start_times) = none := by
      unfold EventGenerator.agent_started
      rw [emit_event_preserves_start_times]
      exact create_event_start_times_consumed _ _ _ _ _ _ _ _ _ _ _
    unfold EventGenerator.agent_completed EventGenerator.create_event
    simp [hst]
  · unfold EventGenerator.agent_started EventGenerator.create_event
    simp [lookup_setKey_self]

/-- C2 (counterexample): a generator with one registered handler and a
storage whose write fails: the public `workflow_started` call invokes no
handler at all, refuting "even when the store write fails every registered
handler is still invoked". -/
def gBadStore : EventGenerator :=
  { workflow_id := "W1"
    storage := { rows := [], readFails := false, writeFails := true }
    event_handlers := [{ hid := "h1", raisesOn := fun _ => false }]
    start_times := [] }

/-- C2 is false as stated: with a failing store write, the registered handler
`h1` is not invoked (the invocation record of the emission is empty). -/
theorem store_failure_skips_handlers_cex :
    (gBadStore.workflow_started none "evt-1" 0 0).2.2 = [] ∧
    gBadStore.event_handlers.map Handler.hid = ["h1"] := ⟨rfl, rfl⟩

/-- C2 (amended): a public emission call never raises (the emission function
is total and returns in every case); when the store write succeeds, every
registered handler is invoked in registration order (a raising handler is
caught and recorded, and the loop continues); but when the store write fails
the failure is only logged and no handler is invoked. -/
theorem emit_tail_behavior (g : EventGenerator) (e : WorkflowEvent)
    (data : Option Json) (eid : String) (ts : Nat) (now : Int) :
    (g.emit_event e).2 =
      (if g.storage.writeFails then []
       else g.event_handlers.map (fun h => (h.hid, h.raisesOn e))) ∧
    (g.workflow_started data eid ts now).2.2 =
      (if g.storage.writeFails then []
       else g.event_handlers.map
         (fun h => (h.hid, h.raisesOn (g.workflow_started data eid ts now).2.1))) := by
  constructor
  · cases hw : g.storage.writeFails <;>
      simp [EventGenerator.emit_event, EventStorage.store_event, hw]
  · have hpres := create_event_preserves g eid ts now "workflow_started"
      "workflow_orchestrator" "info" "Workflow execution started"
      (dataOrEmpty data) none none
    cases hw : g.storage.writeFails <;>
      simp [EventGenerator.workflow_started, EventGenerator.emit_event,
        EventStorage.store_event, hpres.1, hpres.2.1, hw]

/-- C7: a handler that raises on every call does not prevent the append to
the store from succeeding, and a second, well-behaved handler registered
after it is still invoked with the same event (its invocation is recorded
after the raising one's). -/
theorem raising_handler_isolated (g : EventGenerator) (e : WorkflowEvent)
    (h1 h2 : Handler)
    (hw : g.storage.writeFails = false)
    (hh : g.event_handlers = [h1, h2])
    (hr : ∀ ev, h1.raisesOn ev = true) :
    (g.emit_event e).1.storage.rows = g.storage.rows ++ [eventToRow e] ∧
    (g.emit_event e).2 = [(h1.hid, true), (h2.hid, h2.raisesOn e)] := by
  simp [EventGenerator.emit_event, EventStorage.store_event, hw, hh, hr e]

/-- Witness generator for C7: a raising handler followed by a well-behaved
one over a working store. -/
def gTwoHandlers : EventGenerator :=
  { workflow_id := "W1"
    storage := { rows := [], readFails := false, writeFails := false }
    event_handlers := [{ hid := "boom", raisesOn := fun _ => true },
                       { hid := "ok", raisesOn := fun _ => false }]
    start_times := [] }

/-- Witness event for C7. -/
def eSample : WorkflowEvent :=
  { event_id := "e-1", workflow_id := "W1", timestamp := 5,
    event_type := "status_update", agent_name := "parser", status := "info",
    message := "m", data := Json.obj JObj.nil, duration := none,
    error := none, metadata := none }

/-- C7 witness: the two-handler scenario at a concrete event. -/
theorem raising_handler_isolated_witness :
    (gTwoHandlers.emit_event eSample).1.storage.rows =
      gTwoHandlers.storage.rows ++ [eventToRow eSample] ∧
    (gTwoHandlers.emit_event eSample).2 = [("boom", true), ("ok", false)] :=
  raising_handler_isolated gTwoHandlers eSample
    { hid := "boom", raisesOn := fun _ => true }
    { hid := "ok", raisesOn := fun _ => false }
    rfl rfl (fun _ => rfl)

/-- C9: `get_active_workflows` returns exactly the registered workflow ids:
`["W1"]` after `create_generator("W1")` on a fresh manager, `[]` after the
subsequent `remove_generator("W1")`; and removing an absent id leaves the
manager unchanged. -/
theorem manager_registry (s : EventStorage) (m : EventManager) (wid : String)
    (habs : lookupKey wid m.active_generators = none) :
    ((EventManager.init s).create_generator "W1").2.get_active_workflows = ["W1"] ∧
    (((EventManager.init s).create_generator "W1").2.remove_generator "W1").get_active_workflows = [] ∧
    m.remove_generator wid = m := by
  refine ⟨rfl, rfl, ?_⟩
  unfold EventManager.remove_generator
  rw [habs]

/-- C9 witness: the registry scenario at a concrete storage and manager. -/
theorem manager_registry_witness :
    ((EventManager.init { rows := [], readFails := false, writeFails := false }).create_generator
        "W1").2.get_active_workflows = ["W1"] ∧
    (((EventManager.init { rows := [], readFails := false, writeFails := false }).create_generator
        "W1").2.remove_generator "W1").get_active_workflows = [] ∧
    (EventManager.init { rows := [], readFails := false, writeFails := false }).remove_generator
        "W2" = EventManager.init { rows := [], readFails := false, writeFails := false } :=
  manager_registry { rows := [], readFails := false, writeFails := false }
    (EventManager.init { rows := [], readFails := false, writeFails := false }) "W2" rfl

/-- C3 (evaluation of the defect): whatever the subscriber set, broadcasting
an event queues an envelope but draining the broadcast queue performs no
delivery at all — `_send_to_subscribers` only logs.  In particular with two
connected listeners neither receives the envelope, refuting the claim that
both do. -/
theorem broadcast_delivers_to_no_listener (e : WorkflowEvent) (now : Nat)
    (s : SSEServer) :
    ((s.broadcast_event e now).drain_queue.2 = []) ∧
    (SSEServer.send_to_subscribers s.subscribers { event := e, timestamp := now } = []) ∧
    (({ subscribers := ["client_1", "client_2"], event_queue := [] } :
        SSEServer).broadcast_event e now).event_queue.length = 1 := by
  refine ⟨?_, rfl, rfl⟩
  simp [SSEServer.drain_queue, SSEServer.send_to_subscribers]

/-- Non-increasing timestamp order on returned events. -/
def evGE (a b : WorkflowEvent) : Prop := b.timestamp ≤ a.timestamp

theorem rowToEvent_fields {r : Row} {e : WorkflowEvent} (h : rowToEvent r = some e) :
    e.timestamp = r.timestamp ∧ e.workflow_id = r.workflow_id ∧
    e.event_id = r.event_id := by
  unfold rowToEvent at h
  cases hd : Json.loads r.data with
  | none => rw [hd] at h; exact absurd h (by simp)
  | some d =>
    cases hm : r.metadata with
    | none =>
      simp only [hd, hm] at h
      cases h
      exact ⟨rfl, rfl, rfl⟩
    | some mt =>
      cases hmt : Json.loads mt with
      | none => simp only [hd, hm, hmt] at h; exact absurd h (by simp)
      | some m =>
        simp only [hd, hm, hmt] at h
        cases h
        exact ⟨rfl, rfl, rfl⟩

theorem rowsToEvents_length {l : List Row} {es : List WorkflowEvent}
    (h : rowsToEvents l = some es) : es.length = l.length := by
  induction l generalizing es with
  | nil => cases h; rfl
  | cons r rs ih =>
    simp only [rowsToEvents] at h
    cases he : rowToEvent r with
    | none => rw [he] at h; exact absurd h (by simp)
    | some e =>
      rw [he] at h
      cases hrs : rowsToEvents rs with
      | none => rw [hrs] at h; exact absurd h (by simp)
      | some es' =>
        rw [hrs] at h
        cases h
        simp [ih hrs]

theorem rowsToEvents_mem_rev {l : List Row} {es : List WorkflowEvent}
    (h : rowsToEvents l = some es) {e : WorkflowEvent} (he : e ∈ es) :
    ∃ r ∈ l, rowToEvent r = some e := by
  induction l generalizing es with
  | nil => cases h; cases he
  | cons r rs ih =>
    simp only [rowsToEvents] at h
    cases hr : rowToEvent r with
    | none => rw [hr] at h; exact absurd h (by simp)
    | some e0 =>
      rw [hr] at h
      cases hrs : rowsToEvents rs with
      | none => rw [hrs] at h; exact absurd h (by simp)
      | some es' =>
        rw [hrs] at h
        cases h
        rcases List.mem_cons.mp he with h0 | h1
        · exact ⟨r, List.mem_cons_self r rs, h0 ▸ hr⟩
        · obtain ⟨r', hr', hre⟩ := ih hrs h1
          exact ⟨r', List.mem_cons_of_mem r hr', hre⟩

theorem rowsToEvents_mem_fwd {l : List Row} {es : List WorkflowEvent}
    (h : rowsToEvents l = some es) {r : Row} (hr : r ∈ l)
    {e : WorkflowEvent} (hre : rowToEvent r = some e) : e ∈ es := by
  induction l generalizing es with
  | nil => cases hr
  | cons r0 rs ih =>
    simp only [rowsToEvents] at h
    cases hr0 : rowToEvent r0 with
    | none => rw [hr0] at h; exact absurd h (by simp)
    | some e0 =>
      rw [hr0] at h
      cases hrs : rowsToEvents rs with
      | none => rw [hrs] at h; exact absurd h (by simp)
      | some es' =>
        rw [hrs] at h
        cases h
        rcases List.mem_cons.mp hr with h0 | h1
        · subst h0
          rw [hr0] at hre
          cases hre
          exact List.mem_cons_self _ _
        · exact List.mem_cons_of_mem _ (ih hrs h1)

theorem rowsToEvents_isSome {l : List Row}
    (h : ∀ r ∈ l, (rowToEvent r).isSome) : ∃ es, rowsToEvents l = some es := by
  induction l with
  | nil => exact ⟨[], rfl⟩
  | cons r rs ih =>
    obtain ⟨es, hes⟩ := ih (fun r' hr' => h r' (List.mem_cons_of_mem r hr'))
    have hr := h r (List.mem_cons_self r rs)
    cases hre : rowToEvent r with
    | none => rw [hre] at hr; exact absurd hr (by simp)
    | some e =>
      refine ⟨e :: es, ?_⟩
      simp only [rowsToEvents]
      rw [hre, hes]

theorem rowsToEvents_pairwise {l : List Row} {es : List WorkflowEvent}
    (h : rowsToEvents l = some es) (hp : List.Pairwise tsGE l) :
    List.Pairwise evGE es := by
  induction l generalizing es with
  | nil => cases h; exact List.Pairwise.nil
  | cons r rs ih =>
    simp only [rowsToEvents] at h
    cases hr : rowToEvent r with
    | none => rw [hr] at h; exact absurd h (by simp)
    | some e =>
      rw [hr] at h
      cases hrs : rowsToEvents rs with
      | none => rw [hrs] at h; exact absurd h (by simp)
      | some es' =>
        rw [hrs] at h
        cases h
        rcases List.pairwise_cons.mp hp with ⟨hhead, htail⟩
        refine List.Pairwise.cons ?_ (ih hrs htail)
        intro e' he'
        obtain ⟨r', hr', hre'⟩ := rowsToEvents_mem_rev hrs he'
        have h1 := (rowToEvent_fields hr).1
        have h2 := (rowToEvent_fields hre').1
        have := hhead r' hr'
        unfold tsGE at this
        unfold evGE
        omega

theorem sorted_sortByTsDesc (l : List Row) : List.Sorted tsGE (sortByTsDesc l) :=
  List.sorted_insertionSort tsGE l

theorem mem_sortByTsDesc {l : List Row} {r : Row} :
    r ∈ sortByTsDesc l ↔ r ∈ l := List.mem_insertionSort tsGE

theorem length_sortByTsDesc (l : List Row) :
    (sortByTsDesc l).length = l.length := List.length_insertionSort tsGE l

/-- C4: for every store state and limit, both query operations return events
in non-increasing timestamp order. -/
theorem queries_sorted_desc (s : EventStorage) (wid : String) (limit : Nat) :
    List.Sorted evGE (s.get_events_by_workflow wid limit) ∧
    List.Sorted evGE (s.get_recent_events limit) := by
  have core : ∀ rows : List Row, List.Sorted evGE
      (match rowsToEvents ((sortByTsDesc rows).take limit) with
       | some es => es
       | none => []) := by
    intro rows
    cases h : rowsToEvents ((sortByTsDesc rows).take limit) with
    | none => exact List.sorted_nil
    | some es =>
      exact rowsToEvents_pairwise h
        ((sorted_sortByTsDesc rows).sublist (List.take_sublist _ _))
  constructor
  · unfold EventStorage.get_events_by_workflow
    cases hr : s.readFails
    · simpa [hr] using core (s.rows.filter (fun r => r.workflow_id == wid))
    · simp [hr]
  · unfold EventStorage.get_recent_events
    cases hr : s.readFails
    · simpa [hr] using core s.rows
    · simp [hr]

/-- C6: `get_events_by_workflow(W, N)` returns at most `N` records, and every
returned record's `workflow_id` equals `W`. -/
theorem query_by_workflow_limit_and_filter (s : EventStorage) (wid : String)
    (limit : Nat) :
    (s.get_events_by_workflow wid limit).length ≤ limit ∧
    (∀ e ∈ s.get_events_by_workflow wid limit, e.workflow_id = wid) := by
  unfold EventStorage.get_events_by_workflow
  cases hr : s.readFails
  · simp only [hr, Bool.false_eq_true, if_false]
    cases h : rowsToEvents
        ((sortByTsDesc (s.rows.filter (fun r => r.workflow_id == wid))).take limit) with
    | none => simp
    | some es =>
      simp only []
      constructor
      · rw [rowsToEvents_length h]
        exact List.length_take_le _ _
      · intro e he
        obtain ⟨r, hrmem, hre⟩ := rowsToEvents_mem_rev h he
        have hfil : r ∈ s.rows.filter (fun r => r.workflow_id == wid) :=
          mem_sortByTsDesc.mp ((List.take_sublist _ _).subset hrmem)
        have hwid : (r.workflow_id == wid) = true := (List.mem_filter.mp hfil).2
        rw [(rowToEvent_fields hre).2.1]
        exact eq_of_beq hwid
  · simp [hr]

/-- C8: querying a workflow id with no stored events returns an empty list
(not an error), and a read failure also yields an empty result instead of
propagating an exception (for both query operations). -/
theorem empty_and_failed_reads (s : EventStorage) (wid : String) (limit : Nat) :
    ((∀ r ∈ s.rows, r.workflow_id ≠ wid) → s.get_events_by_workflow wid limit = []) ∧
    (s.readFails = true →
      s.get_events_by_workflow wid limit = [] ∧ s.get_recent_events limit = []) := by
  constructor
  · intro hnone
    unfold EventStorage.get_events_by_workflow
    have hf : s.rows.filter (fun r => r.workflow_id == wid) = [] :=
      List.filter_eq_nil_iff.mpr (fun r hr => by simp [hnone r hr])
    cases hrf : s.readFails
    · simp [hrf, hf, sortByTsDesc, rowsToEvents]
    · simp [hrf]
  · intro hrf
    unfold EventStorage.get_events_by_workflow EventStorage.get_recent_events
    simp [hrf]

/-- C8 witness: the empty store and a store whose read fails, at concrete
arguments. -/
theorem empty_and_failed_reads_witness :
    (({ rows := [], readFails := false, writeFails := false } :
        EventStorage).get_events_by_workflow "W" 5 = []) ∧
    (({ rows := [], readFails := true, writeFails := false } :
        EventStorage).get_events_by_workflow "W" 5 = [] ∧
      ({ rows := [], readFails := true, writeFails := false } :
        EventStorage).get_recent_events 5 = []) :=
  ⟨(empty_and_failed_reads
      { rows := [], readFails := false, writeFails := false } "W" 5).1 (by simp),
   (empty_and_failed_reads
      { rows := [], readFails := true, writeFails := false } "W" 5).2 rfl⟩

theorem rowToEvent_eventToRow (e : WorkflowEvent) :
    rowToEvent (eventToRow e) = some e := by
  cases e with
  | mk eid wid ts et an st msg d dur err md =>
    have hd := loads_dumps d
    simp only [Json.dumps] at hd
    cases md with
    | none => simp [eventToRow, rowToEvent, Json.dumps, hd]
    | some m =>
      have hm := loads_dumps m
      simp only [Json.dumps] at hm
      simp [eventToRow, rowToEvent, Json.dumps, hd, hm]

/-- C5: an event appended with `store_event` is retrievable through
`get_events_by_workflow` with a structurally equal `data` mapping
(serialise then deserialise is the identity), whatever nested JSON value the
`data` field holds — provided the store works, the pre-existing rows are
well-formed and the limit is large enough to include the new event. -/
theorem store_query_roundtrip (s s' : EventStorage) (e : WorkflowEvent)
    (limit : Nat)
    (hread : s.readFails = false)
    (hgood : ∀ r ∈ s.rows, (rowToEvent r).isSome)
    (hlim : s.rows.length < limit)
    (hst : s.store_event e = Except.ok s') :
    ∃ ev ∈ s'.get_events_by_workflow e.workflow_id limit,
      ev.event_id = e.event_id ∧ ev.data = e.data := by
  unfold EventStorage.store_event at hst
  cases hw : s.writeFails
  · rw [hw] at hst
    simp only [Bool.false_eq_true, if_false, Except.ok.injEq] at hst
    subst hst
    unfold EventStorage.get_events_by_workflow
    simp only [hread, Bool.false_eq_true, if_false]
    set filtered :=
      (s.rows ++ [eventToRow e]).filter (fun r => r.workflow_id == e.workflow_id) with hfil
    have hmemf : eventToRow e ∈ filtered := by
      rw [hfil]
      refine List.mem_filter.mpr ⟨List.mem_append_right _ (List.mem_singleton.mpr rfl), ?_⟩
      simp [eventToRow]
    have hlen : (sortByTsDesc filtered).length ≤ limit := by
      rw [length_sortByTsDesc]
      have h1 : filtered.length ≤ (s.rows ++ [eventToRow e]).length :=
        List.length_filter_le _ _
      simp only [List.length_append, List.length_singleton] at h1
      omega
    rw [List.take_of_length_le hlen]
    have hallgood : ∀ r ∈ sortByTsDesc filtered, (rowToEvent r).isSome := by
      intro r hrs
      have : r ∈ s.rows ++ [eventToRow e] :=
        (List.mem_filter.mp (mem_sortByTsDesc.mp hrs)).1
      rcases List.mem_append.mp this with h1 | h1
      · exact hgood r h1
      · rw [List.mem_singleton.mp h1, rowToEvent_eventToRow]
        rfl
    obtain ⟨es, hes⟩ := rowsToEvents_isSome hallgood
    simp only [hes]
    exact ⟨e, rowsToEvents_mem_fwd hes (mem_sortByTsDesc.mpr hmemf)
      (rowToEvent_eventToRow e), rfl, rfl⟩
  · rw [hw] at hst
    exact absurd hst (by simp)

/-- C5 witness event: a nested `data` mapping with a list of a number, a
boolean and a string, plus a boolean field. -/
def eNested : WorkflowEvent :=
  { event_id := "e-42", workflow_id := "W9", timestamp := 7,
    event_type := "status_update", agent_name := "parser", status := "info",
    message := "m",
    data := Json.obj (JObj.cons "items"
      (Json.arr (JArr.cons (Json.num 1) (JArr.cons (Json.bool true)
        (JArr.cons (Json.str "x") JArr.nil))))
      (JObj.cons "ok" (Json.bool false) JObj.nil)),
    duration := none, error := none, metadata := none }

/-- C5 witness storage states: the empty working store and the same store
after the nested event's row was appended. -/
def sEmptyStore : EventStorage :=
  { rows := [], readFails := false, writeFails := false }

/-- The empty working store after `store_event eNested`. -/
def sNestedAfter : EventStorage :=
  { rows := [eventToRow eNested], readFails := false, writeFails := false }

/-- C5 witness: storing the nested event in an empty working store and
querying its workflow returns an event with its id and a structurally equal
`data` mapping. -/
theorem store_query_roundtrip_witness :
    ∃ ev ∈ sNestedAfter.get_events_by_workflow eNested.workflow_id 3,
      ev.event_id = eNested.event_id ∧ ev.data = eNested.data :=
  store_query_roundtrip sEmptyStore sNestedAfter eNested 3 rfl
    (by simp [sEmptyStore]) (by simp [sEmptyStore]) rfl

/-- C6 witness: the limit bound and the workflow-id filter at a concrete
store holding one matching row. -/
theorem query_limit_and_filter_witness :
    (sNestedAfter.get_events_by_workflow "W9" 3).length ≤ 3 ∧
    eNested.workflow_id = "W9" := by
  have hq : sNestedAfter.get_events_by_workflow "W9" 3 = [eNested] := rfl
  exact ⟨(query_by_workflow_limit_and_filter sNestedAfter "W9" 3).1,
    (query_by_workflow_limit_and_filter sNestedAfter "W9" 3).2 eNested
      (hq ▸ List.mem_singleton.mpr rfl)⟩

end WorkflowEvents
